import Mathlib

/-!
Verification of the osom_lib container library against its specification.

The development shallowly embeds the relevant Rust sources:
* `osom_lib_primitives/src/length.rs` as `Length` over `Int`
  (the i32 value, with the documented range handled explicitly);
* `osom_lib_arrays/src/dynamic_array.rs` as `DynamicArray`,
  a list of elements plus a capacity, with allocation success
  passed in explicitly as a boolean oracle;
* `osom_lib_arrays/src/inline_dynamic_array.rs` as `InlineDynamicArray`;
* `osom_lib_arrays/src/immutable_array/*` as an explicit shared
  block state carrying the two u32 reference counters (arithmetic
  is taken modulo 2^32, as for Rust atomics), the written elements,
  and bookkeeping for destructor calls and deallocation.

Machine integers are modelled as `Int`/`Nat` with explicit modulus where
the source can wrap; fallible operations return `Except` paired with the
post state, mirroring Rust methods mutating `&mut self` and returning
`Result`.
-/

namespace OsomLib

/-! ### Wrapping 32 bit signed arithmetic

Rust release builds wrap i32 arithmetic in two's complement, and the
as-cast from usize to i32 truncates to the low 32 bits read as signed.
Both are modelled by reducing the exact integer result into the window
from minus 2^31 to 2^31 minus 1. -/

/-- Two's complement reduction of an integer into the i32 range. This
models both wrapping i32 addition, subtraction and multiplication
(applied to the exact result) and the as-cast from usize to i32. -/
def i32_wrap (x : Int) : Int := (x + 2147483648) % 4294967296 - 2147483648

/-- Rust i32 division by two: truncation toward zero. Division never
overflows for a divisor of two, so no wrap is involved. -/
def i32_half (x : Int) : Int :=
  if 0 ≤ x then ((x.toNat / 2 : Nat) : Int) else -(((-x).toNat / 2 : Nat) : Int)

/-! ### Length, from osom_lib_primitives/src/length.rs -/

/-- Model of the error type for building a Length. -/
inductive LengthError where
  | TooLarge
  | Negative
deriving DecidableEq

/-- Model of the Length struct: a value stored in an i32 field. -/
structure Length where
  value : Int
deriving DecidableEq

namespace Length

/-- Source constant i32 MAX. -/
def i32Max : Int := 2147483647

/-- Source constant Length MAX, namely i32 MAX minus 1024. -/
def MAX : Int := i32Max - 1024

/-- Model of Length add: the i32 sum, wrapping in release builds, is
checked against 0 and MAX before being committed. The returned Length
is the updated self. -/
def add (l : Length) (v : Int) : Except LengthError Length :=
  let new_value := i32_wrap (l.value + v)
  if new_value < 0 then Except.error LengthError.Negative
  else if new_value > MAX then Except.error LengthError.TooLarge
  else Except.ok (Length.mk new_value)

/-- Model of the Sub i32 operator implementation for Length: it
subtracts the right hand side from the raw field with no check at all,
storing the wrapped i32 difference. The SubAssign i32 implementation
has the identical body. -/
def sub (l : Length) (r : Int) : Length := Length.mk (i32_wrap (l.value - r))

end Length

/-! ### DynamicArray, from osom_lib_arrays/src/dynamic_array.rs

The array owns a block of capacity slots of which the first length
hold live elements; the model keeps the live elements as a list and the
capacity as a plain number. Allocation and reallocation success is an
explicit boolean parameter: the allocator either succeeds or reports
exhaustion, which is all the code observes. -/

/-- Model of ArrayConstructionError from osom_lib_arrays/src/errors.rs. -/
inductive ArrayConstructionError where
  | AllocationError
  | ArrayTooLong
deriving DecidableEq

/-- Source constant: Length MAX as a usize, the maximal array length. -/
def MAX_LENGTH : Nat := 2147483647 - 1024

/-- Model of the DynamicArray struct: live elements plus capacity. -/
structure DynamicArray (T : Type) where
  elems : List T
  capacity : Nat
deriving DecidableEq

namespace DynamicArray

variable {T : Type}

/-- Source growth formula, taking the requested capacity as an i32: 3
times its truncated half, plus 2, computed in i32 arithmetic where the
multiplication and the addition wrap in release builds. -/
def grow_formula (current : Int) : Int := i32_wrap (3 * i32_half current + 2)

/-- Model of grow: on allocator success the block is resized (contents
preserved by resize) and the capacity updated; on failure the error is
propagated with the array untouched, exactly as the source assigns the
new pointer and capacity only after the question mark operator. The
i32 capacity held by the Length is read back as a usize via toNat; a
negative value cannot survive in the source, whose assertion that the
new capacity exceeds the current one panics first. -/
def grow (a : DynamicArray T) (new_capacity : Int) (allocOk : Bool) :
    Except ArrayConstructionError Unit × DynamicArray T :=
  if allocOk then (Except.ok (), { a with capacity := new_capacity.toNat })
  else (Except.error ArrayConstructionError.AllocationError, a)

/-- Model of extend_from_array. The const generic array is a list. -/
def extend_from_array (a : DynamicArray T) (other : List T) (allocOk : Bool) :
    Except ArrayConstructionError Unit × DynamicArray T :=
  if other.length = 0 then (Except.ok (), a)
  else if other.length > MAX_LENGTH then
    (Except.error ArrayConstructionError.ArrayTooLong, a)
  else
    let len := a.elems.length
    let capacity := a.capacity
    if len + other.length > capacity then
      let missing := len + other.length - capacity
      let at_least : Int := i32_wrap ((capacity + missing : Nat) : Int)
      match a.grow (grow_formula at_least) allocOk with
      | (Except.error e, a1) => (Except.error e, a1)
      | (Except.ok _, a1) => (Except.ok (), { a1 with elems := a1.elems ++ other })
    else
      (Except.ok (), { a with elems := a.elems ++ other })

/-- Model of extend_from_slice; the source body mirrors extend_from_array
except that elements are cloned one by one instead of moved. -/
def extend_from_slice (a : DynamicArray T) (slice : List T) (allocOk : Bool) :
    Except ArrayConstructionError Unit × DynamicArray T :=
  if slice.length = 0 then (Except.ok (), a)
  else if slice.length > MAX_LENGTH then
    (Except.error ArrayConstructionError.ArrayTooLong, a)
  else
    let len := a.elems.length
    let capacity := a.capacity
    if len + slice.length > capacity then
      let missing := len + slice.length - capacity
      let at_least : Int := i32_wrap ((capacity + missing : Nat) : Int)
      match a.grow (grow_formula at_least) allocOk with
      | (Except.error e, a1) => (Except.error e, a1)
      | (Except.ok _, a1) => (Except.ok (), { a1 with elems := a1.elems ++ slice })
    else
      (Except.ok (), { a with elems := a.elems ++ slice })

/-- Model of push, which delegates to extend_from_array on a one
element array. -/
def push (a : DynamicArray T) (value : T) (allocOk : Bool) :
    Except ArrayConstructionError Unit × DynamicArray T :=
  a.extend_from_array [value] allocOk

/-- Model of pop: the emptiness test followed by pop_unchecked, which
decrements the length and reads the element past the new length. -/
def pop (a : DynamicArray T) : Option T × DynamicArray T :=
  if a.elems.isEmpty then (none, a)
  else (a.elems.getLast?, { a with elems := a.elems.dropLast })

/-- Model of as_slice: the live elements. -/
def as_slice (a : DynamicArray T) : List T := a.elems

/-- One stack operation on a DynamicArray. -/
inductive Op (T : Type) where
  | push (value : T)
  | pop

/-- Apply one operation with a succeeding allocator, keeping the post
state; this is the successful-operation sequence of the claim. -/
def applyOp (a : DynamicArray T) : Op T → DynamicArray T
  | Op.push v => (a.push v true).2
  | Op.pop => (a.pop).2

/-- Run a sequence of operations from a given state. -/
def runOps (a : DynamicArray T) : List (Op T) → DynamicArray T
  | [] => a
  | op :: rest => runOps (a.applyOp op) rest

/-- The last-in-first-out reference semantics of a push or pop
sequence, written directly on lists: a push appends its value, a pop
removes the most recently appended remaining value. -/
def lifoRun (l : List T) : List (Op T) → List T
  | [] => l
  | Op.push v :: rest => lifoRun (l ++ [v]) rest
  | Op.pop :: rest => lifoRun l.dropLast rest

end DynamicArray

/-! ### InlineDynamicArray, from osom_lib_arrays/src/inline_dynamic_array.rs

The union of an inline buffer and a heap pointer is discriminated by the
capacity equalling N, exactly as in the source. The model keeps the
elements as one list; which storage they live in is determined by the
is_inlined test. Each operation additionally reports whether it invoked
the allocator, so that the no-allocation part of the spec is statable. -/

/-- Model of the InlineDynamicArray struct for a given inline capacity N. -/
structure InlineDynamicArray (N : Nat) (T : Type) where
  elems : List T
  capacity : Nat
deriving DecidableEq

namespace InlineDynamicArray

variable {N : Nat} {T : Type}

/-- Source constant MAX_SIZE, equal to Length MAX. -/
def MAX_SIZE : Nat := 2147483647 - 1024

/-- Model of with_allocator: empty, with capacity exactly N. -/
def new (N : Nat) (T : Type) : InlineDynamicArray N T :=
  { elems := [], capacity := N }

/-- Model of is_inlined: the capacity equals N. -/
def is_inlined (a : InlineDynamicArray N T) : Bool := a.capacity == N

/-- Model of try_grow. The result carries the source Result, the new
state, and whether the allocator was invoked (allocate or resize). -/
def try_grow (a : InlineDynamicArray N T) (new_capacity : Nat) (allocOk : Bool) :
    Except ArrayConstructionError Unit × InlineDynamicArray N T × Bool :=
  if new_capacity > MAX_SIZE then
    (Except.error ArrayConstructionError.ArrayTooLong, a, false)
  else if a.capacity = N then
    if new_capacity ≤ N then (Except.ok (), a, false)
    else if allocOk then
      (Except.ok (), { elems := a.elems, capacity := new_capacity }, true)
    else (Except.error ArrayConstructionError.AllocationError, a, true)
  else
    if allocOk then
      (Except.ok (), { elems := a.elems, capacity := new_capacity }, true)
    else (Except.error ArrayConstructionError.AllocationError, a, true)

/-- Model of push: an inline write while inlined below N, otherwise a
possible grow to double capacity followed by a heap write. -/
def push (a : InlineDynamicArray N T) (value : T) (allocOk : Bool) :
    Except ArrayConstructionError Unit × InlineDynamicArray N T × Bool :=
  if a.capacity = N ∧ a.elems.length < N then
    (Except.ok (), { elems := a.elems ++ [value], capacity := a.capacity }, false)
  else if a.elems.length = a.capacity then
    match a.try_grow (a.capacity * 2) allocOk with
    | (Except.error e, a1, alloc) => (Except.error e, a1, alloc)
    | (Except.ok _, a1, alloc) =>
      (Except.ok (), { elems := a1.elems ++ [value], capacity := a1.capacity }, alloc)
  else
    (Except.ok (), { elems := a.elems ++ [value], capacity := a.capacity }, false)

/-- Model of pop, as for DynamicArray. -/
def pop (a : InlineDynamicArray N T) : Option T × InlineDynamicArray N T :=
  if a.elems.isEmpty then (none, a)
  else (a.elems.getLast?, { a with elems := a.elems.dropLast })

/-- One public mutating operation on an InlineDynamicArray. -/
inductive Op (T : Type) where
  | push (value : T) (allocOk : Bool)
  | pop

/-- Apply one operation, keeping only the post state. -/
def applyOp (a : InlineDynamicArray N T) : Op T → InlineDynamicArray N T
  | Op.push v allocOk => (a.push v allocOk).2.1
  | Op.pop => (a.pop).2

/-- Run a sequence of operations from a given state. -/
def runOps (a : InlineDynamicArray N T) : List (Op T) → InlineDynamicArray N T
  | [] => a
  | op :: rest => runOps (a.applyOp op) rest

end InlineDynamicArray

/-! ### ImmutableArray family, from osom_lib_arrays/src/immutable_array/

The single heap allocation holds two atomic u32 counters followed by the
element data. The model keeps that shared block as an explicit state:
the two counters (values in u32, operations taken modulo 2^32 exactly
as fetch_add and fetch_sub wrap), the elements currently written and
alive, the capacity the block was allocated with, whether the block is
still allocated, the running count of element destructor calls, and the
capacity used to compute the layout passed to deallocate, when
deallocation has happened.

A handle (the InternalArray struct seen by ImmutableArray,
ImmutableWeakArray and ImmutableArrayBuilder) carries its own copies of
the length and capacity fields; handles are modelled by those two
numbers, the block state being threaded explicitly. -/

/-- Model of ImmutableArrayConstructionError. -/
inductive ImmutableArrayConstructionError where
  | AllocationError
  | ArrayTooLong
deriving DecidableEq

/-- The u32 modulus for the atomic counters. -/
def U32_MOD : Nat := 4294967296

/-- One wrapping fetch_add step on a u32 counter; the stored value. -/
def fetch_add_1 (n : Nat) : Nat := (n + 1) % U32_MOD

/-- One wrapping fetch_sub step on a u32 counter; the stored value.
The previous value is read off the counter before the step. -/
def fetch_sub_1 (n : Nat) : Nat := (n + (U32_MOD - 1)) % U32_MOD

/-- Model of the shared heap block of an immutable array. -/
structure BlockState (T : Type) where
  strong : Nat
  weak : Nat
  elems : List T
  capacity : Nat
  allocated : Bool
  destructed : Nat
  dealloc_layout_capacity : Option Nat
deriving DecidableEq

/-- Model of the per handle fields of the InternalArray struct. -/
structure InternalHandle where
  length : Nat
  capacity : Nat
deriving DecidableEq

namespace ImmutableArray

variable {T : Type}

/-- Model of as_slice on a handle: the first length live elements. -/
def as_slice (b : BlockState T) (h : InternalHandle) : List T :=
  b.elems.take h.length

/-- Model of strong_count: an atomic load of the strong counter. -/
def strong_count (b : BlockState T) : Nat := b.strong

/-- Model of weak_count: an atomic load of the weak counter. -/
def weak_count (b : BlockState T) : Nat := b.weak

/-- Model of from_slice_with_allocator. The length check precedes any
allocator call; on success the elements are cloned in and only then are
both counters set to one. The boolean in the result records whether the
allocator was invoked. -/
def from_slice (s : List T) (allocOk : Bool) :
    Except ImmutableArrayConstructionError (BlockState T × InternalHandle) × Bool :=
  if s.length > MAX_LENGTH then
    (Except.error ImmutableArrayConstructionError.ArrayTooLong, false)
  else if allocOk then
    (Except.ok
      ({ strong := 1, weak := 1, elems := s, capacity := s.length,
         allocated := true, destructed := 0, dealloc_layout_capacity := none },
       { length := s.length, capacity := s.length }), true)
  else (Except.error ImmutableArrayConstructionError.AllocationError, true)

/-- Model of clone on a strong handle: fetch_add on the strong counter. -/
def clone (b : BlockState T) : BlockState T :=
  { b with strong := fetch_add_1 b.strong }

/-- Model of downgrade: fetch_add on the weak counter, yielding a weak
handle with the same fields. -/
def downgrade (b : BlockState T) : BlockState T :=
  { b with weak := fetch_add_1 b.weak }

/-- Model of ImmutableWeakArray internal_release: fetch_sub on the weak
counter; when the previous value was 1 every live element of the
handle's slice is destructed and the block is deallocated using the
layout computed from the handle's capacity. The boolean mirrors the
source return value. -/
def weak_internal_release (b : BlockState T) (h : InternalHandle) :
    Bool × BlockState T :=
  let prev := b.weak
  let b1 := { b with weak := fetch_sub_1 b.weak }
  if prev = 1 then
    (true,
     { b1 with
        destructed := b1.destructed + h.length,
        elems := [],
        allocated := false,
        dealloc_layout_capacity := some h.capacity })
  else (false, b1)

/-- Model of ImmutableArray internal_release: fetch_sub on the strong
counter; when the previous value was 1 the handle is converted into a
weak handle, which is returned. No element is touched here. -/
def strong_internal_release (b : BlockState T) (h : InternalHandle) :
    Option InternalHandle × BlockState T :=
  let prev := b.strong
  let b1 := { b with strong := fetch_sub_1 b.strong }
  if prev = 1 then (some h, b1) else (none, b1)

/-- Model of the Drop impl of ImmutableArray: internal_release, then
the returned optional weak handle is itself dropped, running the weak
release. -/
def strong_drop (b : BlockState T) (h : InternalHandle) : BlockState T :=
  match strong_internal_release b h with
  | (some w, b1) => (weak_internal_release b1 w).2
  | (none, b1) => b1

/-- Model of the Drop impl of ImmutableWeakArray: the weak release. -/
def weak_drop (b : BlockState T) (h : InternalHandle) : BlockState T :=
  (weak_internal_release b h).2

end ImmutableArray

namespace ImmutableArrayBuilder

variable {T : Type}

/-- Source constant: the initial capacity of a builder. -/
def INITIAL_CAPACITY : Nat := 16

/-- Source growth formula of the builder: 3 times half the requested
capacity, with no additive term. -/
def grow_formula (current : Nat) : Nat := 3 * (current / 2)

/-- Model of with_allocator: InternalArray allocate with length zero
and the initial capacity. The source zeroes the HeapData header, so
both counters start at zero; nothing ever sets them on this path. -/
def with_allocator (allocOk : Bool) :
    Except ArrayConstructionError (BlockState T) :=
  if allocOk then
    Except.ok
      { strong := 0, weak := 0, elems := [], capacity := INITIAL_CAPACITY,
        allocated := true, destructed := 0, dealloc_layout_capacity := none }
  else Except.error ArrayConstructionError.AllocationError

/-- Model of the builder's extend_from_array. The builder state is the
block plus its handle fields; the handle length always equals the
number of written elements, so the block state alone suffices. -/
def extend_from_array (b : BlockState T) (values : List T) (allocOk : Bool) :
    Except ArrayConstructionError Unit × BlockState T :=
  if values.length = 0 then (Except.ok (), b)
  else if values.length > MAX_LENGTH then
    (Except.error ArrayConstructionError.ArrayTooLong, b)
  else
    let len := b.elems.length
    let cap := b.capacity
    if len + values.length > cap then
      let missing := len + values.length - cap
      let new_capacity := grow_formula (cap + missing)
      if allocOk then
        (Except.ok (), { b with capacity := new_capacity, elems := b.elems ++ values })
      else (Except.error ArrayConstructionError.AllocationError, b)
    else (Except.ok (), { b with elems := b.elems ++ values })

/-- Model of the builder's push. -/
def push (b : BlockState T) (value : T) (allocOk : Bool) :
    Except ArrayConstructionError Unit × BlockState T :=
  extend_from_array b [value] allocOk

/-- Model of build: a plain ownership transfer of the InternalArray
into an ImmutableArray. The counters are not touched. -/
def build (b : BlockState T) : BlockState T × InternalHandle :=
  (b, { length := b.elems.length, capacity := b.capacity })

/-- Model of the Drop impl of the builder: the InternalArray is wrapped
into an ImmutableWeakArray, whose drop performs the weak release. -/
def drop (b : BlockState T) : BlockState T :=
  (ImmutableArray.weak_internal_release b
    { length := b.elems.length, capacity := b.capacity }).2

end ImmutableArrayBuilder

namespace ImmutableWeakArray

variable {T : Type}

/-- Model of upgrade, parameterised by the interference of other
threads on the strong counter. initial_strong is the value the first
load observes. Each schedule entry describes one iteration of the
retry loop: the counter value at the moment of compare_exchange_weak,
whether that compare exchange fails spuriously, and the counter value
the subsequent reload observes when the compare exchange failed. A
successful compare exchange stores its expected value plus one and the
function returns that stored value; an exhausted schedule (a loop that
never succeeds) yields none. -/
def upgrade_loop (expected : Nat) : List (Nat × Bool × Nat) → Option Nat
  | [] => none
  | (c, spurious, reload) :: rest =>
    if c = expected ∧ spurious = false then some (fetch_add_1 c)
    else upgrade_loop reload rest

/-- Model of upgrade: a first load of the strong counter, an early
return of none when it is zero, then the compare exchange retry loop. -/
def upgrade (initial_strong : Nat) (sched : List (Nat × Bool × Nat)) : Option Nat :=
  if initial_strong = 0 then none
  else upgrade_loop initial_strong sched

end ImmutableWeakArray

/-! ### Helper lemmas -/

/-- A u32 fetch_sub on a positive in-range counter is plain
subtraction by one. -/
theorem fetch_sub_1_of_pos {w : Nat} (h1 : 1 ≤ w) (h2 : w < U32_MOD) :
    fetch_sub_1 w = w - 1 := by
  unfold fetch_sub_1 U32_MOD at *
  omega

/-- An integer already inside the i32 range is fixed by the wrap. -/
theorem i32_wrap_eq_self {x : Int} (h1 : -2147483648 ≤ x) (h2 : x < 2147483648) :
    i32_wrap x = x := by
  unfold i32_wrap
  omega

/-- An integer one window above the i32 range wraps down by 2^32. -/
theorem i32_wrap_of_high {x : Int} (h1 : 2147483648 ≤ x) (h2 : x < 6442450944) :
    i32_wrap x = x - 4294967296 := by
  unfold i32_wrap
  omega

/-- A failing extend_from_array leaves the DynamicArray untouched. -/
theorem extend_from_array_error_eq {T : Type} {a : DynamicArray T} {other : List T}
    {allocOk : Bool} {e : ArrayConstructionError}
    (h : (a.extend_from_array other allocOk).1 = Except.error e) :
    (a.extend_from_array other allocOk).2 = a := by
  unfold DynamicArray.extend_from_array DynamicArray.grow at h ⊢
  by_cases h0 : other.length = 0
  · simp [h0] at h
  · by_cases h1 : other.length > MAX_LENGTH
    · simp [h0, h1]
    · by_cases h2 : a.elems.length + other.length > a.capacity
      · by_cases h3 : allocOk
        · simp [h0, h1, h2, h3] at h
        · simp [h0, h1, h2, h3]
      · simp [h0, h1, h2] at h

/-- A failing extend_from_slice leaves the DynamicArray untouched. -/
theorem extend_from_slice_error_eq {T : Type} {a : DynamicArray T} {slice : List T}
    {allocOk : Bool} {e : ArrayConstructionError}
    (h : (a.extend_from_slice slice allocOk).1 = Except.error e) :
    (a.extend_from_slice slice allocOk).2 = a := by
  unfold DynamicArray.extend_from_slice DynamicArray.grow at h ⊢
  by_cases h0 : slice.length = 0
  · simp [h0] at h
  · by_cases h1 : slice.length > MAX_LENGTH
    · simp [h0, h1]
    · by_cases h2 : a.elems.length + slice.length > a.capacity
      · by_cases h3 : allocOk
        · simp [h0, h1, h2, h3] at h
        · simp [h0, h1, h2, h3]
      · simp [h0, h1, h2] at h

/-- A push with a succeeding allocator appends exactly its value. -/
theorem push_true_elems {T : Type} (a : DynamicArray T) (v : T) :
    ((a.push v true).2).elems = a.elems ++ [v] := by
  unfold DynamicArray.push DynamicArray.extend_from_array DynamicArray.grow
  rw [if_neg (by norm_num : ¬ ([v].length = 0)),
      if_neg (by norm_num [MAX_LENGTH] : ¬ ([v].length > MAX_LENGTH))]
  by_cases hc : a.elems.length + [v].length > a.capacity
  · rw [if_pos hc]; rfl
  · rw [if_neg hc]

/-- The pop model returns the last element and removes it. -/
theorem pop_spec {T : Type} (a : DynamicArray T) :
    (a.pop).1 = a.elems.getLast? ∧ (a.pop).2.elems = a.elems.dropLast := by
  unfold DynamicArray.pop
  by_cases h : a.elems.isEmpty
  · rw [List.isEmpty_iff] at h
    simp [h]
  · simp [h]

/-- Running stack operations from any state matches the LIFO reference
semantics on the element list. -/
theorem runOps_elems {T : Type} (ops : List (DynamicArray.Op T)) :
    ∀ a : DynamicArray T,
      (DynamicArray.runOps a ops).elems = DynamicArray.lifoRun a.elems ops := by
  induction ops with
  | nil => intro a; rfl
  | cons op rest ih =>
    intro a
    cases op with
    | push v =>
      have h : (a.applyOp (DynamicArray.Op.push v)).elems = a.elems ++ [v] :=
        push_true_elems a v
      calc (DynamicArray.runOps a (DynamicArray.Op.push v :: rest)).elems
          = (DynamicArray.runOps (a.applyOp (DynamicArray.Op.push v)) rest).elems := rfl
        _ = DynamicArray.lifoRun (a.applyOp (DynamicArray.Op.push v)).elems rest := ih _
        _ = DynamicArray.lifoRun (a.elems ++ [v]) rest := by rw [h]
        _ = DynamicArray.lifoRun a.elems (DynamicArray.Op.push v :: rest) := rfl
    | pop =>
      have h : (a.applyOp DynamicArray.Op.pop).elems = a.elems.dropLast :=
        (pop_spec a).2
      calc (DynamicArray.runOps a (DynamicArray.Op.pop :: rest)).elems
          = (DynamicArray.runOps (a.applyOp DynamicArray.Op.pop) rest).elems := rfl
        _ = DynamicArray.lifoRun (a.applyOp DynamicArray.Op.pop).elems rest := ih _
        _ = DynamicArray.lifoRun a.elems.dropLast rest := by rw [h]
        _ = DynamicArray.lifoRun a.elems (DynamicArray.Op.pop :: rest) := rfl

/-! ### Claims about DynamicArray (C5, C6, C8) -/

/-- Claim C5: whenever push, extend_from_array or extend_from_slice on
a DynamicArray returns an error, the array is left exactly as it was:
same length, capacity and element contents. The length check and the
growth happen before any element is copied, so both failure paths
return with the state untouched. -/
theorem claim5_failed_growth_is_atomic (T : Type) :
    ∀ (a : DynamicArray T) (value : T) (other : List T) (allocOk : Bool)
      (e : ArrayConstructionError),
      ((a.extend_from_array other allocOk).1 = Except.error e →
        (a.extend_from_array other allocOk).2 = a)
      ∧ ((a.extend_from_slice other allocOk).1 = Except.error e →
        (a.extend_from_slice other allocOk).2 = a)
      ∧ ((a.push value allocOk).1 = Except.error e →
        (a.push value allocOk).2 = a) :=
  fun _ _ _ _ _ =>
    ⟨fun h => extend_from_array_error_eq h,
     fun h => extend_from_slice_error_eq h,
     fun h => extend_from_array_error_eq h⟩

/-- Witness for claim C5: a failing allocation during push and both
extends on an empty zero capacity array leaves it unchanged. -/
theorem claim5_witness :
    ((DynamicArray.mk ([] : List Nat) 0).extend_from_array [5] false).2
      = DynamicArray.mk [] 0
    ∧ ((DynamicArray.mk ([] : List Nat) 0).extend_from_slice [5] false).2
      = DynamicArray.mk [] 0
    ∧ ((DynamicArray.mk ([] : List Nat) 0).push 5 false).2
      = DynamicArray.mk [] 0 :=
  ⟨(claim5_failed_growth_is_atomic Nat (DynamicArray.mk [] 0) 5 [5] false
      ArrayConstructionError.AllocationError).1 rfl,
   (claim5_failed_growth_is_atomic Nat (DynamicArray.mk [] 0) 5 [5] false
      ArrayConstructionError.AllocationError).2.1 rfl,
   (claim5_failed_growth_is_atomic Nat (DynamicArray.mk [] 0) 5 [5] false
      ArrayConstructionError.AllocationError).2.2 rfl⟩

/-- Claim C6, evaluated on the code at a failing input: with length
and capacity both 2^30 and a successful extend by 2^30 further
elements, the usize request 2^31 is cast to i32 and wraps to minus
2^31, and the i32 multiplication inside the growth formula wraps
again, so the growth succeeds with capacity 1073741826 although the
claim requires at least 3 times half the old capacity plus 2, which is
1610612738, and at least length plus k, which is 2147483648; the
subsequent copy then overruns the allocated block. -/
theorem claim6_wrapped_growth_violates_bounds (l other : List Unit)
    (hl : l.length = 1073741824) (hother : other.length = 1073741824) :
    ((DynamicArray.mk l 1073741824).extend_from_array other true).1 = Except.ok ()
    ∧ ((DynamicArray.mk l 1073741824).extend_from_array other true).2.capacity
        = 1073741826
    ∧ (1073741826 : Nat) < 3 * (1073741824 / 2) + 2
    ∧ (1073741826 : Nat) < 1073741824 + 1073741824 := by
  have key : (DynamicArray.mk l 1073741824).extend_from_array other true
      = (Except.ok (), DynamicArray.mk (l ++ other) 1073741826) := by
    unfold DynamicArray.extend_from_array DynamicArray.grow
    rw [if_neg (by omega : ¬ (other.length = 0)),
        if_neg (by rw [hother]; norm_num [MAX_LENGTH] : ¬ (other.length > MAX_LENGTH)),
        if_pos (by simp [hl, hother] :
          (DynamicArray.mk l 1073741824).elems.length + other.length
            > (DynamicArray.mk l 1073741824).capacity)]
    simp only [hl, hother]
    norm_num [DynamicArray.grow_formula, i32_wrap, i32_half]
    rfl
  exact ⟨by rw [key], by rw [key], by norm_num, by norm_num⟩

/-- Witness for claim C6 at the concrete failing input: two blocks of
2^30 unit elements. -/
theorem claim6_witness :
    ((DynamicArray.mk (List.replicate 1073741824 ()) 1073741824).extend_from_array
        (List.replicate 1073741824 ()) true).1 = Except.ok ()
    ∧ ((DynamicArray.mk (List.replicate 1073741824 ()) 1073741824).extend_from_array
        (List.replicate 1073741824 ()) true).2.capacity = 1073741826
    ∧ (1073741826 : Nat) < 3 * (1073741824 / 2) + 2
    ∧ (1073741826 : Nat) < 1073741824 + 1073741824 :=
  claim6_wrapped_growth_violates_bounds (List.replicate 1073741824 ())
    (List.replicate 1073741824 ())
    (List.length_replicate 1073741824 ()) (List.length_replicate 1073741824 ())

/-- Claim C8: running any sequence of successful pushes and pops from
an empty DynamicArray yields exactly the pushed values minus the popped
ones in last-in-first-out order, and pop returns the last element when
the array is nonempty, none when it is empty, and never fails. -/
theorem claim8_push_pop_lifo (T : Type) :
    (∀ ops : List (DynamicArray.Op T),
        (DynamicArray.runOps (DynamicArray.mk [] 0) ops).elems
          = DynamicArray.lifoRun [] ops)
    ∧ (∀ a : DynamicArray T,
        (a.pop).1 = a.elems.getLast? ∧ (a.pop).2.elems = a.elems.dropLast) :=
  ⟨fun ops => runOps_elems ops (DynamicArray.mk [] 0), fun a => pop_spec a⟩

/-! ### Claim C9 about the immutable array round-trip -/

/-- Claim C9: for a slice within the maximal length, from_slice with a
succeeding allocator builds the block with both counters one and the
elements equal to the slice, and as_slice reads back exactly the slice;
for a longer slice, from_slice fails with ArrayTooLong and the boolean
recording an allocator call is false, so the allocator is not touched. -/
theorem claim9_from_slice_roundtrip (T : Type) :
    (∀ s : List T, s.length ≤ MAX_LENGTH →
        ImmutableArray.from_slice s true
          = (Except.ok ({ strong := 1, weak := 1, elems := s, capacity := s.length, allocated := true, destructed := 0, dealloc_layout_capacity := none }, { length := s.length, capacity := s.length }), true)
        ∧ ImmutableArray.as_slice { strong := 1, weak := 1, elems := s, capacity := s.length, allocated := true, destructed := 0, dealloc_layout_capacity := none } { length := s.length, capacity := s.length } = s)
    ∧ (∀ (s : List T) (allocOk : Bool), MAX_LENGTH < s.length →
        ImmutableArray.from_slice s allocOk
          = (Except.error ImmutableArrayConstructionError.ArrayTooLong, false)) := by
  constructor
  · intro s hs
    constructor
    · unfold ImmutableArray.from_slice
      rw [if_neg (by omega)]
      rfl
    · unfold ImmutableArray.as_slice
      simp
  · intro s allocOk hs
    unfold ImmutableArray.from_slice
    rw [if_pos hs]

/-- Witness for claim C9: a one element slice round-trips, and a slice
one element past the maximal length is rejected without allocation. -/
theorem claim9_witness :
    (ImmutableArray.from_slice [(3 : Nat)] true
        = (Except.ok ({ strong := 1, weak := 1, elems := [3], capacity := 1, allocated := true, destructed := 0, dealloc_layout_capacity := none }, { length := 1, capacity := 1 }), true)
      ∧ ImmutableArray.as_slice { strong := 1, weak := 1, elems := [(3 : Nat)], capacity := 1, allocated := true, destructed := 0, dealloc_layout_capacity := none } { length := 1, capacity := 1 } = [3])
    ∧ ImmutableArray.from_slice (List.replicate (MAX_LENGTH + 1) (0 : Nat)) true
        = (Except.error ImmutableArrayConstructionError.ArrayTooLong, false) :=
  ⟨(claim9_from_slice_roundtrip Nat).1 [3] (by decide),
   (claim9_from_slice_roundtrip Nat).2 (List.replicate (MAX_LENGTH + 1) 0) true
     (by simp)⟩

/-! ### Claims about Length (C10) -/

/-- Claim C10: within the i32 domain and the documented Length range,
the Sub and SubAssign operators on Length subtract from the raw field
with no bounds or sign check: for a right hand side exceeding the
stored value the i32 difference does not even wrap, so a Length
silently holding the exact negative difference is produced, violating
the documented non-negative range. Length add, in contrast, returns a
LengthError for every out-of-range sum: Negative when the exact sum is
negative, TooLarge when it exceeds MAX without leaving i32, and again
Negative when the wrapping i32 sum comes out negative; in-range sums
are committed exactly. -/
theorem claim10_sub_unchecked_add_checked :
    (∀ (L : Length) (r : Int), 0 ≤ L.value → L.value ≤ Length.MAX →
        L.value < r → r ≤ Length.i32Max →
        (Length.sub L r).value = L.value - r ∧ (Length.sub L r).value < 0)
    ∧ (∀ (L : Length) (v : Int), 0 ≤ L.value → -2147483648 ≤ v →
        L.value + v < 0 →
        Length.add L v = Except.error LengthError.Negative)
    ∧ (∀ (L : Length) (v : Int), Length.MAX < L.value + v →
        L.value + v ≤ Length.i32Max →
        Length.add L v = Except.error LengthError.TooLarge)
    ∧ (∀ (L : Length) (v : Int), L.value ≤ Length.MAX → v ≤ Length.i32Max →
        Length.i32Max < L.value + v →
        Length.add L v = Except.error LengthError.Negative)
    ∧ (∀ (L : Length) (v : Int), 0 ≤ L.value + v → L.value + v ≤ Length.MAX →
        Length.add L v = Except.ok (Length.mk (L.value + v))) := by
  have hMAX : Length.MAX = 2147482623 := by decide
  have hI : Length.i32Max = 2147483647 := rfl
  refine ⟨fun L r h0 h1 h2 h3 => ?_, fun L v h0 h1 h2 => ?_,
    fun L v h1 h2 => ?_, fun L v h1 h2 h3 => ?_, fun L v h0 h1 => ?_⟩
  · rw [hI] at h3
    have hw : i32_wrap (L.value - r) = L.value - r :=
      i32_wrap_eq_self (by omega) (by omega)
    unfold Length.sub
    rw [hw]
    refine ⟨rfl, ?_⟩
    show L.value - r < 0
    omega
  · have hw : i32_wrap (L.value + v) = L.value + v :=
      i32_wrap_eq_self (by omega) (by omega)
    unfold Length.add
    rw [hw, if_pos h2]
  · rw [hMAX] at h1
    rw [hI] at h2
    have hw : i32_wrap (L.value + v) = L.value + v :=
      i32_wrap_eq_self (by omega) (by omega)
    unfold Length.add
    rw [hw, if_neg (by omega), if_pos (by rw [hMAX]; omega)]
  · rw [hMAX] at h1
    rw [hI] at h2 h3
    have hw : i32_wrap (L.value + v) = L.value + v - 4294967296 :=
      i32_wrap_of_high (by omega) (by omega)
    unfold Length.add
    rw [hw, if_pos (by omega)]
  · rw [hMAX] at h1
    have hw : i32_wrap (L.value + v) = L.value + v :=
      i32_wrap_eq_self (by omega) (by omega)
    unfold Length.add
    rw [hw, if_neg (by omega), if_neg (by rw [hMAX]; omega)]

/-- Witness for claim C10 at concrete inputs; the fourth conjunct is
exercised at the wrapping pair of MAX and i32 MAX. -/
theorem claim10_witness :
    ((Length.sub (Length.mk 5) 6).value = 5 - 6
      ∧ (Length.sub (Length.mk 5) 6).value < 0)
    ∧ Length.add (Length.mk 5) (-6) = Except.error LengthError.Negative
    ∧ Length.add (Length.mk 5) Length.MAX = Except.error LengthError.TooLarge
    ∧ Length.add (Length.mk Length.MAX) Length.i32Max = Except.error LengthError.Negative
    ∧ Length.add (Length.mk 5) 7 = Except.ok (Length.mk (5 + 7)) :=
  ⟨claim10_sub_unchecked_add_checked.1 (Length.mk 5) 6
     (by decide) (by decide) (by decide) (by decide),
   claim10_sub_unchecked_add_checked.2.1 (Length.mk 5) (-6)
     (by decide) (by decide) (by decide),
   claim10_sub_unchecked_add_checked.2.2.1 (Length.mk 5) Length.MAX
     (by decide) (by decide),
   claim10_sub_unchecked_add_checked.2.2.2.1 (Length.mk Length.MAX) Length.i32Max
     (by decide) (by decide) (by decide),
   claim10_sub_unchecked_add_checked.2.2.2.2 (Length.mk 5) 7
     (by decide) (by decide)⟩

/-! ### Claim C7 about InlineDynamicArray -/

/-- Growing an InlineDynamicArray never shrinks its capacity. -/
theorem inline_try_grow_capacity_mono {N : Nat} {T : Type}
    (a : InlineDynamicArray N T) (c : Nat) (ok : Bool) (hc : a.capacity ≤ c) :
    a.capacity ≤ ((a.try_grow c ok).2.1).capacity := by
  unfold InlineDynamicArray.try_grow
  repeat' split
  all_goals simp [hc]

/-- A push never shrinks the capacity of an InlineDynamicArray. -/
theorem inline_push_capacity_mono {N : Nat} {T : Type}
    (a : InlineDynamicArray N T) (v : T) (ok : Bool) :
    a.capacity ≤ ((a.push v ok).2.1).capacity := by
  unfold InlineDynamicArray.push
  split
  · simp
  · split
    · rcases htg : a.try_grow (a.capacity * 2) ok with ⟨r, a1, alloc⟩
      have h := inline_try_grow_capacity_mono a (a.capacity * 2) ok (by omega)
      rw [htg] at h
      cases r <;> simpa using h
    · simp

/-- No public operation shrinks the capacity of an InlineDynamicArray. -/
theorem inline_applyOp_capacity_mono {N : Nat} {T : Type}
    (a : InlineDynamicArray N T) (op : InlineDynamicArray.Op T) :
    a.capacity ≤ ((a.applyOp op).capacity) := by
  cases op with
  | push v ok => exact inline_push_capacity_mono a v ok
  | pop =>
    show a.capacity ≤ ((a.pop).2).capacity
    unfold InlineDynamicArray.pop
    split <;> simp

/-- Capacity lower bounds survive any operation sequence. -/
theorem inline_runOps_capacity_ge {N : Nat} {T : Type}
    (ops : List (InlineDynamicArray.Op T)) :
    ∀ a : InlineDynamicArray N T,
      N ≤ a.capacity → N ≤ (InlineDynamicArray.runOps a ops).capacity := by
  induction ops with
  | nil => intro a h; exact h
  | cons op rest ih =>
    intro a h
    exact ih _ (le_trans h (inline_applyOp_capacity_mono a op))

/-- Claim C7: for InlineDynamicArray with inline capacity N, capacity
stays at least N across every push or pop sequence from a fresh array;
is_inlined holds exactly when the capacity equals N; a push while
inlined and below N elements writes inline without calling the
allocator; the first push beyond N elements grows to a heap block of
doubled capacity, copying the inline elements and calling the
allocator; and once the capacity exceeds N, no operation ever brings it
back, so is_inlined stays false forever even if the length later drops
below N. -/
theorem claim7_inline_invariants (N : Nat) (T : Type) (hN : 0 < N) :
    (∀ ops : List (InlineDynamicArray.Op T),
        N ≤ (InlineDynamicArray.runOps (InlineDynamicArray.new N T) ops).capacity)
    ∧ (∀ a : InlineDynamicArray N T,
        InlineDynamicArray.is_inlined a = true ↔ a.capacity = N)
    ∧ (∀ (a : InlineDynamicArray N T) (v : T),
        a.capacity = N → a.elems.length < N →
        a.push v true
          = (Except.ok (), InlineDynamicArray.mk (a.elems ++ [v]) N, false))
    ∧ (∀ (a : InlineDynamicArray N T) (v : T),
        a.capacity = N → a.elems.length = N →
        N * 2 ≤ InlineDynamicArray.MAX_SIZE →
        a.push v true
          = (Except.ok (), InlineDynamicArray.mk (a.elems ++ [v]) (N * 2), true))
    ∧ (∀ (a : InlineDynamicArray N T) (op : InlineDynamicArray.Op T),
        N < a.capacity → N < (a.applyOp op).capacity) := by
  refine ⟨fun ops => inline_runOps_capacity_ge ops _ (le_refl N),
    fun a => ?_, fun a v hcap hlen => ?_, fun a v hcap hlen hmax => ?_,
    fun a op h => lt_of_lt_of_le h (inline_applyOp_capacity_mono a op)⟩
  · unfold InlineDynamicArray.is_inlined
    simp
  · unfold InlineDynamicArray.push
    rw [if_pos ⟨hcap, hlen⟩, hcap]
  · have h1 : ¬ (a.capacity = N ∧ a.elems.length < N) := by omega
    unfold InlineDynamicArray.push InlineDynamicArray.try_grow
    rw [if_neg h1, if_pos (by omega : a.elems.length = a.capacity)]
    rw [if_neg (by rw [hcap]; omega : ¬ a.capacity * 2 > InlineDynamicArray.MAX_SIZE)]
    rw [if_pos hcap, if_neg (by rw [hcap]; omega : ¬ a.capacity * 2 ≤ N)]
    simp [hcap]

/-- Witness for claim C7 with inline capacity two at concrete inputs. -/
theorem claim7_witness :
    (2 ≤ (InlineDynamicArray.runOps (InlineDynamicArray.new 2 Nat)
        [InlineDynamicArray.Op.push 1 true, InlineDynamicArray.Op.push 2 true,
         InlineDynamicArray.Op.push 3 true]).capacity)
    ∧ (InlineDynamicArray.is_inlined (InlineDynamicArray.mk (N := 2) [(9 : Nat)] 5) = true
        ↔ (5 : Nat) = 2)
    ∧ ((InlineDynamicArray.mk (N := 2) [(1 : Nat)] 2).push 7 true
        = (Except.ok (), InlineDynamicArray.mk [1, 7] 2, false))
    ∧ ((InlineDynamicArray.mk (N := 2) [(1 : Nat), 2] 2).push 7 true
        = (Except.ok (), InlineDynamicArray.mk [1, 2, 7] (2 * 2), true))
    ∧ (2 < ((InlineDynamicArray.mk (N := 2) [(1 : Nat), 2, 3] 4).applyOp
        InlineDynamicArray.Op.pop).capacity) :=
  ⟨(claim7_inline_invariants 2 Nat (by decide)).1 _,
   (claim7_inline_invariants 2 Nat (by decide)).2.1 _,
   (claim7_inline_invariants 2 Nat (by decide)).2.2.1 _ 7 rfl (by decide),
   (claim7_inline_invariants 2 Nat (by decide)).2.2.2.1 _ 7 rfl rfl (by decide),
   (claim7_inline_invariants 2 Nat (by decide)).2.2.2.2 _ InlineDynamicArray.Op.pop
     (by decide)⟩

/-! ### Claims about the immutable array reference counting (C1 to C4) -/

/-- Claim C1, evaluated on the code: the spec promises strong and weak
counts of one immediately after build as well as after from_slice. The
from_slice path does store one into both counters, but the builder path
never initialises them: allocate zeroes the header and build is a pure
ownership transfer, so immediately after build both counters read zero.
This theorem evaluates both paths on a one element array. -/
theorem claim1_build_counters_are_zero :
    (ImmutableArrayBuilder.with_allocator (T := Nat) true).map
      (fun b =>
        let p := ImmutableArrayBuilder.build
          (ImmutableArrayBuilder.extend_from_array b [7] true).2
        (ImmutableArray.strong_count p.1, ImmutableArray.weak_count p.1))
      = Except.ok (0, 0)
    ∧ (ImmutableArray.from_slice [(7 : Nat)] true).1.map
        (fun p => (ImmutableArray.strong_count p.1, ImmutableArray.weak_count p.1))
      = Except.ok (1, 1) := by
  constructor <;> rfl

/-- Claim C3, evaluated on the code: the upgrade retry loop reloads the
strong counter after a failed compare exchange but never rechecks it
for zero, so a schedule in which the counter drops to zero after the
initial load lets the subsequent compare exchange succeed with expected
value zero, resurrecting a strong reference: upgrade returns some with
the counter stepping from zero to one. The initial load guard alone
returns none. -/
theorem claim3_upgrade_resurrects_after_zero :
    ImmutableWeakArray.upgrade 1 [(0, false, 0), (0, false, 0)] = some 1
    ∧ ImmutableWeakArray.upgrade 0 [] = none := by
  constructor <;> rfl

/-- Claim C4, evaluated on the code: dropping a builder without build
runs a weak release on a block whose weak counter is still zero, since
allocate zeroed it and nothing on the builder path ever set it. The
fetch_sub then reads previous value zero, not one, so no element is
destructed and the block is never deallocated: the block leaks with
the element still live and the weak counter wrapped around. -/
theorem claim4_builder_drop_leaks :
    (ImmutableArrayBuilder.with_allocator (T := Nat) true).map
      (fun b =>
        let b2 := (ImmutableArrayBuilder.extend_from_array b [7] true).2
        let b3 := ImmutableArrayBuilder.drop b2
        (b3.allocated, b3.destructed, b3.elems, b3.weak))
      = Except.ok (true, 0, [7], U32_MOD - 1) := by
  rfl

/-- Claim C2, counterexample: construct a one element array via
from_slice, downgrade once so that the weak counter is two, then drop
the only strong handle. The previous strong value is one, yet at that
moment no element is destructed: the drop only performs the implicit
weak release, leaving the element alive in the still allocated block
with zero destructor calls, contradicting the claim that every element
is destructed in place when the strong counter falls to zero. -/
theorem claim2_counterexample_no_destruction_at_strong_zero :
    (ImmutableArray.from_slice [(7 : Nat)] true).1.map
      (fun p => ImmutableArray.strong_drop (ImmutableArray.downgrade p.1) p.2)
      = Except.ok
          { strong := 0, weak := 1, elems := [7], capacity := 1,
            allocated := true, destructed := 0, dealloc_layout_capacity := none } := by
  rfl

/-- Claim C2 as amended: dropping the last strong handle only performs
the implicit weak release, so while further weak handles remain the
elements stay live and the block allocated; the elements are destructed
in place exactly at the weak release that observes previous weak value
one, and at that same moment the block is deallocated using the layout
computed from the handle's capacity. -/
theorem claim2_amended_destruction_at_last_weak_release (T : Type) :
    (∀ (b : BlockState T) (h : InternalHandle),
        b.strong = 1 → 2 ≤ b.weak → b.weak < U32_MOD →
        ImmutableArray.strong_drop b h
          = { b with strong := 0, weak := b.weak - 1 })
    ∧ (∀ (b : BlockState T) (h : InternalHandle),
        b.weak = 1 →
        ImmutableArray.weak_internal_release b h
          = (true, { b with weak := 0, destructed := b.destructed + h.length, elems := [], allocated := false, dealloc_layout_capacity := some h.capacity })) := by
  constructor
  · intro b h hs hw2 hwlt
    have hw : ¬ (b.weak = 1) := by omega
    have h1 : fetch_sub_1 1 = 0 := by norm_num [fetch_sub_1, U32_MOD]
    have h2 : fetch_sub_1 b.weak = b.weak - 1 := fetch_sub_1_of_pos (by omega) hwlt
    simp [ImmutableArray.strong_drop, ImmutableArray.strong_internal_release,
          ImmutableArray.weak_internal_release, hs, hw, h1, h2]
  · intro b h hw
    have h1 : fetch_sub_1 1 = 0 := by norm_num [fetch_sub_1, U32_MOD]
    simp [ImmutableArray.weak_internal_release, hw, h1]

/-- Witness for the amended claim C2 at concrete inputs. -/
theorem claim2_amended_witness :
    ImmutableArray.strong_drop
        { strong := 1, weak := 2, elems := [(5 : Nat)], capacity := 1,
          allocated := true, destructed := 0, dealloc_layout_capacity := none }
        { length := 1, capacity := 1 }
      = { strong := 0, weak := 1, elems := [(5 : Nat)], capacity := 1,
          allocated := true, destructed := 0, dealloc_layout_capacity := none }
    ∧ ImmutableArray.weak_internal_release
        { strong := 0, weak := 1, elems := [(5 : Nat)], capacity := 1,
          allocated := true, destructed := 0, dealloc_layout_capacity := none }
        { length := 1, capacity := 1 }
      = (true,
         { strong := 0, weak := 0, elems := ([] : List Nat), capacity := 1,
           allocated := false, destructed := 1, dealloc_layout_capacity := some 1 }) :=
  ⟨(claim2_amended_destruction_at_last_weak_release Nat).1 _ _ rfl (by decide) (by decide),
   (claim2_amended_destruction_at_last_weak_release Nat).2 _ _ rfl⟩

end OsomLib
